import Mathlib

/-!
Verification of paifu_gen (src/src/lib.rs): the board text codec
(`TryInto<Board> for RawBoard`) and the perspective replay engine
(`generate_board_from_tenhou_js`), embedded shallowly.

The tile type and its parsing/formatting primitives live in the external
`riichi` crate; the spec treats them as external collaborators, so they are
modelled here from the spec: a tile is a rank+suit value with a red-five
flag, written as a 2-character token (rank char, then suit char, rank `0`
reserved for the red five), honours using the `z` suit; `Tile::from_str`
additionally accepts the 1-character wind/dragon names used for `bakaze`
and `jikaze`.
-/

/-- Modelled from the spec: the external `Tile` type. `kind` is the tile
value in man/pin/sou/wind/dragon order (0..33); `red` is the red-five flag,
ignored by the de-reddened comparison `deaka`. -/
structure Tile where
  kind : Fin 34
  red : Bool
deriving DecidableEq, Repr, Fintype

/-- Modelled from the spec: `Tile::deaka`, the de-reddened value of a tile. -/
def Tile.deaka (t : Tile) : Tile :=
  { t with red := false }

/-- A tile is valid when its red flag is only set on a five of m/p/s. -/
def Tile.valid (t : Tile) : Prop :=
  t.red = true → t.kind.val = 4 ∨ t.kind.val = 13 ∨ t.kind.val = 22

instance (t : Tile) : Decidable t.valid := by
  unfold Tile.valid; infer_instance

/-- Modelled from the spec: `parse_tile` on a 2-character tile token
(1-character rank + 1-character suit, rank `0` reserved for the red five,
honours `1z`..`7z`). -/
def parseTile (s : String) : Option Tile :=
  match s with
  | "1m" => some ⟨0, false⟩
  | "2m" => some ⟨1, false⟩
  | "3m" => some ⟨2, false⟩
  | "4m" => some ⟨3, false⟩
  | "5m" => some ⟨4, false⟩
  | "6m" => some ⟨5, false⟩
  | "7m" => some ⟨6, false⟩
  | "8m" => some ⟨7, false⟩
  | "9m" => some ⟨8, false⟩
  | "0m" => some ⟨4, true⟩
  | "1p" => some ⟨9, false⟩
  | "2p" => some ⟨10, false⟩
  | "3p" => some ⟨11, false⟩
  | "4p" => some ⟨12, false⟩
  | "5p" => some ⟨13, false⟩
  | "6p" => some ⟨14, false⟩
  | "7p" => some ⟨15, false⟩
  | "8p" => some ⟨16, false⟩
  | "9p" => some ⟨17, false⟩
  | "0p" => some ⟨13, true⟩
  | "1s" => some ⟨18, false⟩
  | "2s" => some ⟨19, false⟩
  | "3s" => some ⟨20, false⟩
  | "4s" => some ⟨21, false⟩
  | "5s" => some ⟨22, false⟩
  | "6s" => some ⟨23, false⟩
  | "7s" => some ⟨24, false⟩
  | "8s" => some ⟨25, false⟩
  | "9s" => some ⟨26, false⟩
  | "0s" => some ⟨22, true⟩
  | "1z" => some ⟨27, false⟩
  | "2z" => some ⟨28, false⟩
  | "3z" => some ⟨29, false⟩
  | "4z" => some ⟨30, false⟩
  | "5z" => some ⟨31, false⟩
  | "6z" => some ⟨32, false⟩
  | "7z" => some ⟨33, false⟩
  | _ => none

/-- Modelled from the spec: formatting of one tile as its 2-character token
(inverse of `parseTile` on valid tiles); this is `tiles_vec_to_string`
applied to a single tile. -/
def renderTile (t : Tile) : String :=
  if t.red then
    match t.kind.val with
    | 4 => "0m"
    | 13 => "0p"
    | _ => "0s"
  else
    match t.kind.val with
    | 0 => "1m" | 1 => "2m" | 2 => "3m" | 3 => "4m" | 4 => "5m"
    | 5 => "6m" | 6 => "7m" | 7 => "8m" | 8 => "9m"
    | 9 => "1p" | 10 => "2p" | 11 => "3p" | 12 => "4p" | 13 => "5p"
    | 14 => "6p" | 15 => "7p" | 16 => "8p" | 17 => "9p"
    | 18 => "1s" | 19 => "2s" | 20 => "3s" | 21 => "4s" | 22 => "5s"
    | 23 => "6s" | 24 => "7s" | 25 => "8s" | 26 => "9s"
    | 27 => "1z" | 28 => "2z" | 29 => "3z" | 30 => "4z" | 31 => "5z"
    | 32 => "6z" | _ => "7z"

/-- Modelled from the spec: `Tile::from_str`, which also accepts the
1-character wind and dragon names used for `bakaze` and `jikaze`. -/
def tileFromStr (s : String) : Option Tile :=
  match s with
  | "E" => some ⟨27, false⟩
  | "S" => some ⟨28, false⟩
  | "W" => some ⟨29, false⟩
  | "N" => some ⟨30, false⟩
  | "P" => some ⟨31, false⟩
  | "F" => some ⟨32, false⟩
  | "C" => some ⟨33, false⟩
  | _ => parseTile s

/-- The wind tile of seat/round `w` (0 = East .. 3 = North). -/
def windTile (w : Fin 4) : Tile :=
  ⟨⟨27 + w.val, by omega⟩, false⟩

/-- Modelled from the spec: the `Display` name of a wind tile, as used when
the replay engine formats `state.bakaze`. -/
def windName (w : Fin 4) : String :=
  match w with
  | 0 => "E"
  | 1 => "S"
  | 2 => "W"
  | 3 => "N"

/-- Modelled from the spec: the digit value of a character, for the external
integer `FromStr` parsers (an ASCII decimal digit maps to its value, any
other character is rejected). -/
def digitVal (c : Char) : Option Nat :=
  if c.isDigit then some (c.toNat - 48) else none

/-- Modelled from the spec: parse a non-empty run of decimal digits. -/
def parseNatDigits (cs : List Char) : Option Nat :=
  match cs with
  | [] => none
  | _ => cs.foldlM (fun n c => (digitVal c).map (fun d => n * 10 + d)) 0

/-- Modelled from the spec: Rust `u8::from_str` (optional leading plus sign,
decimal digits, value at most 255). -/
def parseU8 (s : String) : Option Nat :=
  let digits :=
    match s.data with
    | '+' :: rest => parseNatDigits rest
    | cs => parseNatDigits cs
  digits.bind (fun n => if n ≤ 255 then some n else none)

/-- Modelled from the spec: Rust `i32::from_str` (optional sign, decimal
digits, value within the i32 range). -/
def parseI32 (s : String) : Option Int :=
  match s.data with
  | '-' :: rest =>
    (parseNatDigits rest).bind
      (fun n => if n ≤ 2147483648 then some (-(n : Int)) else none)
  | '+' :: rest =>
    (parseNatDigits rest).bind
      (fun n => if n ≤ 2147483647 then some ((n : Int)) else none)
  | cs =>
    (parseNatDigits cs).bind
      (fun n => if n ≤ 2147483647 then some ((n : Int)) else none)

/-- Round-trip: rendering a valid tile parses back to the same tile. -/
theorem parseTile_renderTile (t : Tile) (h : t.valid) :
    parseTile (renderTile t) = some t := by
  revert h
  revert t
  decide

/-- Round-trip: any successfully parsed token is the rendering of its tile. -/
theorem renderTile_parseTile (s : String) (t : Tile)
    (h : parseTile s = some t) : renderTile t = s := by
  unfold parseTile at h
  split at h <;> simp_all <;> subst h <;> decide

/-- A discard record (`Sutehai` in the source): tile, tedashi flag (discarded
from hand), riichi flag (riichi declared on this discard). -/
structure Sutehai where
  pai : Tile
  tedashi : Bool
  riichi : Bool
deriving DecidableEq, Repr

/-- A meld tile record (`Fuurohai` in the source): tile plus sideways flag.
The replay engine represents the same data as a `(Tile, bool)` pair. -/
abbrev Fuurohai := Tile × Bool

/-- Kawa decode, from the `TryInto<Board>` loop (lib.rs lines 62-87): scan
2-character tile tokens, each optionally followed by `.` (tsumogiri) or `-`
(tsumogiri and riichi); no marker means tedashi.  A dangling single
character is the hard error `incorrect kawa`. -/
def decodeKawaChars : List Char → Except String (List Sutehai)
  | [] => .ok []
  | [_] => .error "incorrect kawa"
  | c1 :: c2 :: rest =>
    match parseTile (String.mk [c1, c2]) with
    | none => .error "incorrect tile"
    | some t =>
      match rest with
      | '.' :: r => (decodeKawaChars r).map (fun l => ⟨t, false, false⟩ :: l)
      | '-' :: r => (decodeKawaChars r).map (fun l => ⟨t, false, true⟩ :: l)
      | r => (decodeKawaChars r).map (fun l => ⟨t, true, false⟩ :: l)

/-- Kawa decode on a string, as applied to one seat's kawa field. -/
def decodeKawa (s : String) : Except String (List Sutehai) :=
  decodeKawaChars s.data

/-- Kawa encode of one visible-discard entry `(pai, tsumogiri, riichi)`, from
`kawa_strings` in `generate_board_from_tenhou_js` (lib.rs lines 258-279):
the tile token followed by `.` if tsumogiri, else `-` if riichi, else
nothing.  Note the source tests `tsumogiri` before `riichi`. -/
def encodeKawaEntry (e : Tile × Bool × Bool) : String :=
  renderTile e.1 ++ (if e.2.1 then "." else if e.2.2 then "-" else "")

/-- Kawa encode of one seat's visible discard sequence (joined with no
delimiter). -/
def encodeKawaSeat (l : List (Tile × Bool × Bool)) : String :=
  String.join (l.map encodeKawaEntry)

/-- Fuuro decode, from the `TryInto<Board>` loop (lib.rs lines 88-125): a
scan over tile tokens and parentheses; `(` while open and `)` while closed
are hard errors; each 2-character token is appended to one flat list,
sideways iff currently inside parentheses; end of input is accepted even
with a parenthesis still open. -/
def decodeFuuroChars : List Char → Bool → Except String (List Fuurohai)
  | [], _ => .ok []
  | c1 :: rest, inParentheses =>
    if c1 = '(' then
      if inParentheses then .error "nested opening parenthesis in fuuro"
      else decodeFuuroChars rest true
    else if c1 = ')' then
      if inParentheses then decodeFuuroChars rest false
      else .error "extra closing parenthesis in fuuro"
    else
      match rest with
      | [] => .error "incorrect fuuro"
      | c2 :: rest2 =>
        match parseTile (String.mk [c1, c2]) with
        | none => .error "incorrect tile"
        | some t =>
          (decodeFuuroChars rest2 inParentheses).map
            (fun l => (t, inParentheses) :: l)

/-- Fuuro decode on a string, as applied to one seat's fuuro field (the scan
starts outside parentheses). -/
def decodeFuuro (s : String) : Except String (List Fuurohai) :=
  decodeFuuroChars s.data false

/-- Fuuro encode of one meld tile, from `fuuro_strings` in
`generate_board_from_tenhou_js` (lib.rs lines 288-294): `(tile)` if
sideways, else `tile`. -/
def encodeFuurohai (e : Fuurohai) : String :=
  if e.2 then "(" ++ renderTile e.1 ++ ")" else renderTile e.1

/-- Fuuro encode of one seat's meld-group list, from `fuuro_strings`
(lib.rs lines 281-298): groups reversed, flattened, each tile formatted,
joined with no delimiter. -/
def encodeFuuroSeat (groups : List (List Fuurohai)) : String :=
  String.join ((groups.reverse.flatten).map encodeFuurohai)

/-- Kyoku decode, from `TryInto<Board>` (lib.rs lines 45-47): the string
must have length exactly 2 (the source checks the byte length; they agree
on ASCII input); character 0 parses as the round-wind tile, character 1 as
the round number. -/
def decodeKyoku (s : String) : Except String (Tile × Nat) :=
  match s.data with
  | [c1, c2] =>
    match tileFromStr (String.mk [c1]) with
    | none => .error "incorrect bakaze"
    | some w =>
      match parseU8 (String.mk [c2]) with
      | none => .error "incorrect kyoku"
      | some n => .ok (w, n)
  | _ => .error "kyoku must be <bakaze><honba> (e.g. S3)"

/-- Score decode, from `TryInto<Board>` (lib.rs lines 53-59): an empty
string yields the default 25000, otherwise the string is parsed as an
integer with the field-named error `incorrect score`. -/
def decodeScore (raw : String) : Except String Int :=
  if raw.isEmpty then .ok 25000
  else
    match parseI32 raw with
    | none => .error "incorrect score"
    | some v => .ok v

/-- Score decode over the zip of the four default board scores with the raw
score strings (the source mutates `board.scores` in place over the zip). -/
def decodeScoresList : List Int → List String → Except String (List Int)
  | scores, [] => .ok scores
  | [], _ => .ok []
  | _ :: ss, r :: rs => do
    let v ← decodeScore r
    let vs ← decodeScoresList ss rs
    .ok (v :: vs)

/-- The mjai events inspected by the replay engine; every variant the
`match event` in `generate_board_from_tenhou_js` does not name is collapsed
into `other` (its arm is `_ => {}`). -/
inductive Event where
  | dahai (actor : Fin 4) (pai : Tile) (tsumogiri : Bool)
  | chi (actor target : Fin 4) (pai : Tile) (consumed : List Tile)
  | pon (actor target : Fin 4) (pai : Tile) (consumed : List Tile)
  | daiminkan (actor target : Fin 4) (pai : Tile) (consumed : List Tile)
  | ankan (actor : Fin 4) (consumed : List Tile)
  | kakan (actor : Fin 4) (pai : Tile) (consumed : List Tile)
  | endKyoku
  | other
deriving DecidableEq, Repr

/-- Modelled from the spec: `PlayerState::rel`, the pure seat-relative index
(0 = self, 1 = right, 2 = across, 3 = left) of absolute seat `a` from the
viewpoint of `pid`. -/
def rel (pid a : Fin 4) : Fin 4 :=
  ⟨(4 + a.val - pid.val) % 4, by omega⟩

/-- The two per-seat projections maintained by the replay loop:
`visible_kawa` entries are `(pai, tsumogiri, riichi)`, `fuuro` entries are
meld groups of `(tile, sideways)` pairs. -/
structure Projections where
  kawa : Fin 4 → List (Tile × Bool × Bool)
  fuuro : Fin 4 → List (List Fuurohai)

/-- The empty projections both arrays start from. -/
def emptyProjections : Projections :=
  ⟨fun _ => [], fun _ => []⟩

/-- Inner kakan scan (lib.rs lines 245-250): walk one meld group; at the
first tile that is sideways and matches the upgrading tile de-reddened,
insert `(pai, true)` right after it; `none` when the group has no match. -/
def kakanGroup (pai : Tile) : List Fuurohai → Option (List Fuurohai)
  | [] => none
  | (t, sw) :: restTiles =>
    if t.deaka = pai.deaka ∧ sw = true then
      some ((t, sw) :: (pai, true) :: restTiles)
    else
      (kakanGroup pai restTiles).map (fun l => (t, sw) :: l)

/-- Outer kakan scan (lib.rs lines 244-251): the first meld group whose
inner scan matches is replaced by its upgraded form and the walk stops
(`break 'outer`); groups with no match are kept unchanged. -/
def kakanUpdate (pai : Tile) : List (List Fuurohai) → List (List Fuurohai)
  | [] => []
  | g :: gs =>
    match kakanGroup pai g with
    | some g2 => g2 :: gs
    | none => g :: kakanUpdate pai gs

/-- One projection step of the replay loop's `match event` (lib.rs lines
207-255).  `pid` is the viewing seat (`state.rel` is applied to actors and
targets) and `riichiDeclared` is `state.riichi_declared` after the state
update.  In the `Daiminkan` arm the source builds the meld group `naki`
(with a computed index of 2 remapped to 3) but never pushes it onto
`fuuro`; only the target's discard is popped. -/
def stepProj (pid : Fin 4) (riichiDeclared : Fin 4 → Bool) (ev : Event)
    (p : Projections) : Projections :=
  match ev with
  | .dahai actor pai tsumogiri =>
    { p with
      kawa := Function.update p.kawa (rel pid actor)
        (p.kawa (rel pid actor) ++
          [(pai, tsumogiri, riichiDeclared (rel pid actor))]) }
  | .chi actor target pai consumed | .pon actor target pai consumed =>
    let naki := List.insertIdx ((4 + actor.val - target.val) % 4 - 1)
      (pai, true) (consumed.map (fun t => (t, false)))
    { kawa := Function.update p.kawa (rel pid target)
        ((p.kawa (rel pid target)).dropLast),
      fuuro := Function.update p.fuuro (rel pid actor)
        (p.fuuro (rel pid actor) ++ [naki]) }
  | .daiminkan _ target _ _ =>
    { p with
      kawa := Function.update p.kawa (rel pid target)
        ((p.kawa (rel pid target)).dropLast) }
  | .ankan actor consumed =>
    { p with
      fuuro := Function.update p.fuuro (rel pid actor)
        (p.fuuro (rel pid actor) ++ [consumed.map (fun t => (t, false))]) }
  | .kakan actor pai _ =>
    { p with
      fuuro := Function.update p.fuuro (rel pid actor)
        (kakanUpdate pai (p.fuuro (rel pid actor))) }
  | _ => p

/-- The replay loop (lib.rs lines 203-256), abstracted over the external
rules engine: `upd` is `PlayerState::update` (its error is wrapped as
`invalid event: ...` and aborts the whole replay) and `riichiOf` reads
`state.riichi_declared` from the updated state.  `EndKyoku` stops the loop
after the state update, before any projection change. -/
def replayLoop {S : Type} (upd : S → Event → Except String S)
    (riichiOf : S → Fin 4 → Bool) (pid : Fin 4) :
    S → Projections → List Event → Except String (S × Projections)
  | st, p, [] => .ok (st, p)
  | st, p, ev :: rest =>
    match upd st ev with
    | .error e => .error ("invalid event: " ++ e)
    | .ok st2 =>
      if ev = .endKyoku then .ok (st2, p)
      else replayLoop upd riichiOf pid st2 (stepProj pid (riichiOf st2) ev p) rest

/-- The viewing seat computed at lib.rs line 197:
`(4 + oya + jikaze_id - east_id) % 4`. -/
def viewerSeat (oya : Nat) (jz : Tile) : Fin 4 :=
  ⟨(4 + oya + (jz.kind.val - 27)) % 4, by omega⟩

/-- The input checks and replay of `generate_board_from_tenhou_js`
(lib.rs lines 182-256), abstracted over the external pieces: `numKyokus`
is `tenhou_log.kyokus.len()`, `events` is the output of `tenhou_to_mjai`,
`oya` is `kyoku_num % 4`, `init` is `PlayerState::new`.  An empty log or an
unparsable seat-wind string fails before any replay; a rejected action
aborts the replay with no result. -/
def generateBoardFromTenhou {S : Type} (upd : S → Event → Except String S)
    (riichiOf : S → Fin 4 → Bool) (numKyokus : Nat) (oya : Nat)
    (events : List Event) (jikazeStr : String) (init : Fin 4 → S) :
    Except String (S × Projections) :=
  if numKyokus = 0 then .error "no kyokus"
  else
    match tileFromStr jikazeStr with
    | none => .error "invalid jikaze"
    | some jz =>
      replayLoop upd riichiOf (viewerSeat oya jz)
        (init (viewerSeat oya jz)) emptyProjections events

/-- The kyoku field emitted by board reconstruction (lib.rs line 301):
the round-wind name followed by the internal 0-based round index plus
one. -/
def encodeKyokuField (bakaze : Fin 4) (kyokuIdx : Nat) : String :=
  windName bakaze ++ toString (kyokuIdx + 1)

/-! ## Helper lemmas -/

deriving instance DecidableEq for Except

theorem strJoin_append (a b : List String) :
    String.join (a ++ b) = String.join a ++ String.join b := by
  rw [String.join_eq, String.join_eq, String.join_eq]
  show String.mk ((a ++ b).map String.data).flatten =
    String.mk ((a.map String.data).flatten ++ (b.map String.data).flatten)
  rw [List.map_append, List.flatten_append]

theorem strJoin_cons (s : String) (l : List String) :
    String.join (s :: l) = s ++ String.join l := by
  obtain ⟨d⟩ := s
  rw [String.join_eq, String.join_eq]
  show String.mk ((String.mk d :: l).map String.data).flatten =
    String.mk (d ++ (l.map String.data).flatten)
  rw [List.map_cons, List.flatten_cons]

theorem strJoin_map_flatten {α : Type} (f : α → String) (l : List (List α)) :
    String.join ((l.flatten).map f) =
      String.join (l.map (fun g => String.join (g.map f))) := by
  induction l with
  | nil => rfl
  | cons g gs ih =>
    rw [List.flatten_cons, List.map_append, strJoin_append, List.map_cons,
      strJoin_cons, ih]

/-- A meld tile matches a kakan upgrade when it is sideways and equal to the
upgrading tile de-reddened (the condition of lib.rs line 246). -/
def sidewaysMatch (pai : Tile) (x : Fuurohai) : Prop :=
  x.1.deaka = pai.deaka ∧ x.2 = true

instance (pai : Tile) (x : Fuurohai) : Decidable (sidewaysMatch pai x) := by
  unfold sidewaysMatch; infer_instance

theorem kakanGroup_none (pai : Tile) (g : List Fuurohai)
    (h : ∀ x ∈ g, ¬ sidewaysMatch pai x) : kakanGroup pai g = none := by
  induction g with
  | nil => rfl
  | cons hd tl ih =>
    obtain ⟨t, sw⟩ := hd
    unfold kakanGroup
    rw [if_neg (show ¬(t.deaka = pai.deaka ∧ sw = true) from
        h (t, sw) (List.mem_cons_self _ _)),
      ih (fun x hx => h x (List.mem_cons_of_mem _ hx))]
    rfl

theorem kakanGroup_first (pai : Tile) (g : List Fuurohai) (i : Nat)
    (x : Fuurohai) (hget : g[i]? = some x) (hx : sidewaysMatch pai x)
    (hfirst : ∀ j < i, ∀ y, g[j]? = some y → ¬ sidewaysMatch pai y) :
    kakanGroup pai g = some (g.take (i + 1) ++ (pai, true) :: g.drop (i + 1)) := by
  induction g generalizing i with
  | nil => simp at hget
  | cons hd tl ih =>
    obtain ⟨t, sw⟩ := hd
    match i with
    | 0 =>
      simp only [List.getElem?_cons_zero, Option.some.injEq] at hget
      subst hget
      unfold kakanGroup
      rw [if_pos (show t.deaka = pai.deaka ∧ sw = true from hx)]
      simp
    | j + 1 =>
      have hhd : ¬ sidewaysMatch pai (t, sw) :=
        hfirst 0 (Nat.succ_pos j) (t, sw) (by simp)
      unfold kakanGroup
      rw [if_neg (show ¬(t.deaka = pai.deaka ∧ sw = true) from hhd),
        ih j (by simpa using hget) (fun m hm y hy =>
          hfirst (m + 1) (Nat.succ_lt_succ hm) y (by simpa using hy))]
      simp

theorem kakanUpdate_no_match (pai : Tile) (gs : List (List Fuurohai))
    (h : ∀ g ∈ gs, ∀ x ∈ g, ¬ sidewaysMatch pai x) :
    kakanUpdate pai gs = gs := by
  induction gs with
  | nil => rfl
  | cons g tl ih =>
    unfold kakanUpdate
    rw [kakanGroup_none pai g (h g (List.mem_cons_self _ _)),
      ih (fun g2 hg2 => h g2 (List.mem_cons_of_mem _ hg2))]

theorem kakanUpdate_first (pai : Tile) (gs : List (List Fuurohai)) (k : Nat)
    (g g2 : List Fuurohai) (hget : gs[k]? = some g)
    (hupg : kakanGroup pai g = some g2)
    (hbefore : ∀ j < k, ∀ gj, gs[j]? = some gj →
      ∀ y ∈ gj, ¬ sidewaysMatch pai y) :
    kakanUpdate pai gs = gs.take k ++ g2 :: gs.drop (k + 1) := by
  induction gs generalizing k with
  | nil => simp at hget
  | cons g0 tl ih =>
    match k with
    | 0 =>
      simp only [List.getElem?_cons_zero, Option.some.injEq] at hget
      subst hget
      unfold kakanUpdate
      rw [hupg]
      simp
    | j + 1 =>
      have h0 : kakanGroup pai g0 = none :=
        kakanGroup_none pai g0 (hbefore 0 (Nat.succ_pos j) g0 (by simp))
      unfold kakanUpdate
      rw [h0,
        ih j (by simpa using hget) (fun m hm gj hgj =>
          hbefore (m + 1) (Nat.succ_lt_succ hm) gj (by simpa using hgj))]
      simp

theorem getElem?_replace_middle {α : Type} (gs : List α) (g2 : α)
    (k j : Nat) (hk : k < gs.length) (hj : j ≠ k) :
    (gs.take k ++ g2 :: gs.drop (k + 1))[j]? = gs[j]? := by
  induction gs generalizing k j with
  | nil => simp at hk
  | cons a tl ih =>
    match k with
    | 0 =>
      match j, hj with
      | m + 1, _ => simp
      | 0, hj => exact absurd rfl hj
    | n + 1 =>
      match j with
      | 0 => simp
      | m + 1 =>
        simpa using ih n m (by simpa using hk) (fun h => hj (by rw [h]))

theorem rel_injective (pid : Fin 4) : Function.Injective (rel pid) := by
  fin_cases pid <;> decide

/-- The marker normalization of the discard round-trip: a trailing riichi
marker `-` is replaced by the tsumogiri marker `.`, every other string is
returned unchanged. -/
def riichiMarkerToTsumogiri (s : String) : String :=
  match s.data.getLast? with
  | some '-' => String.mk (s.data.dropLast ++ ['.'])
  | _ => s

theorem map_cons_ne_ok_nil {α : Type} (a : α) (e : Except String (List α)) :
    Except.map (fun l => a :: l) e ≠ .ok [] := by
  cases e <;> simp [Except.map]

theorem decodeKawaChars_ok_nil (r : List Char)
    (h : decodeKawaChars r = .ok []) : r = [] := by
  match r with
  | [] => rfl
  | [c] => exact Except.noConfusion h
  | c1 :: c2 :: rest =>
    simp only [decodeKawaChars] at h
    cases hp : parseTile (String.mk [c1, c2]) with
    | none =>
      simp only [hp] at h
      exact Except.noConfusion h
    | some t =>
      simp only [hp] at h
      split at h <;> exact absurd h (map_cons_ne_ok_nil _ _)

theorem renderTile_no_dash (t : Tile) :
    ¬ (renderTile t).data.getLast? = some '-' := by
  revert t
  decide

/-! ## Claim theorems -/

/-- C1 (amended): decoding a valid single-discard string and re-encoding
the record is the identity for the markers `""` (tedashi) and `.`
(tsumogiri); for the marker `-` (tsumogiri together with riichi) the
re-encoding emits `.` instead, because the encoder tests the tsumogiri flag
before the riichi flag — so the round trip is the identity up to the
trailing `-` being normalized to `.`. -/
theorem c1_kawa_roundtrip (s : String) (su : Sutehai)
    (h : decodeKawa s = .ok [su]) :
    encodeKawaEntry (su.pai, !su.tedashi, su.riichi) =
      riichiMarkerToTsumogiri s := by
  obtain ⟨cs⟩ := s
  match cs with
  | [] =>
    simp only [decodeKawa, decodeKawaChars] at h
    exact absurd h (by simp)
  | [c] =>
    exact Except.noConfusion h
  | c1 :: c2 :: rest =>
    simp only [decodeKawa, decodeKawaChars] at h
    cases hp : parseTile (String.mk [c1, c2]) with
    | none =>
      simp only [hp] at h
      exact Except.noConfusion h
    | some t =>
      have hrt : renderTile t = String.mk [c1, c2] :=
        renderTile_parseTile _ t hp
      simp only [hp] at h
      split at h
      · rename_i r
        cases hd : decodeKawaChars r with
        | error e =>
          rw [hd] at h
          exact Except.noConfusion h
        | ok l =>
          rw [hd] at h
          simp only [Except.map, Except.ok.injEq, List.cons.injEq] at h
          obtain ⟨rfl, rfl⟩ := h
          rw [decodeKawaChars_ok_nil r hd]
          simp only [encodeKawaEntry, hrt]
          rfl
      · rename_i r
        cases hd : decodeKawaChars r with
        | error e =>
          rw [hd] at h
          exact Except.noConfusion h
        | ok l =>
          rw [hd] at h
          simp only [Except.map, Except.ok.injEq, List.cons.injEq] at h
          obtain ⟨rfl, rfl⟩ := h
          rw [decodeKawaChars_ok_nil r hd]
          simp only [encodeKawaEntry, hrt]
          rfl
      · cases hd : decodeKawaChars rest with
        | error e =>
          rw [hd] at h
          exact Except.noConfusion h
        | ok l =>
          rw [hd] at h
          simp only [Except.map, Except.ok.injEq, List.cons.injEq] at h
          obtain ⟨rfl, rfl⟩ := h
          rw [decodeKawaChars_ok_nil rest hd]
          have hnd : ¬ (String.mk [c1, c2]).data.getLast? = some '-' := by
            rw [← hrt]
            exact renderTile_no_dash t
          unfold riichiMarkerToTsumogiri
          split
          · rename_i heq
            exact absurd heq hnd
          · simp only [encodeKawaEntry, hrt]
            rfl

/-- C1 witness: the single-discard strings `1p` (tedashi) and `1p.`
(tsumogiri) re-encode to themselves. -/
theorem c1_kawa_roundtrip_witness :
    encodeKawaEntry ((⟨⟨9, false⟩, true, false⟩ : Sutehai).pai,
      !(⟨⟨9, false⟩, true, false⟩ : Sutehai).tedashi,
      (⟨⟨9, false⟩, true, false⟩ : Sutehai).riichi) =
      riichiMarkerToTsumogiri "1p"
    ∧ encodeKawaEntry ((⟨⟨9, false⟩, false, false⟩ : Sutehai).pai,
      !(⟨⟨9, false⟩, false, false⟩ : Sutehai).tedashi,
      (⟨⟨9, false⟩, false, false⟩ : Sutehai).riichi) =
      riichiMarkerToTsumogiri "1p." :=
  ⟨c1_kawa_roundtrip "1p" ⟨⟨9, false⟩, true, false⟩ (by decide),
    c1_kawa_roundtrip "1p." ⟨⟨9, false⟩, false, false⟩ (by decide)⟩

/-- C1 counterexample: the riichi discard string `1p-` decodes to a
tsumogiri+riichi record, but that record re-encodes to `1p.`, not `1p-`:
decode-then-encode is not the identity on the `-` marker. -/
theorem c1_riichi_marker_counterexample :
    decodeKawa "1p-" = .ok [⟨⟨9, false⟩, false, true⟩]
    ∧ encodeKawaEntry (⟨9, false⟩, true, true) = "1p."
    ∧ "1p." ≠ "1p-" :=
  ⟨by decide, by decide, by decide⟩

/-- The flat rendering of a meld tile list, as `fuuro_strings` produces for
a single group (each tile via `encodeFuurohai`, no delimiter). -/
def encodeFuuroTiles (l : List Fuurohai) : String :=
  String.join (l.map encodeFuurohai)

theorem decodeFuuro_tile_step (t : Tile) (hv : t.valid) :
    ∀ (suffix : List Char) (b : Bool),
      decodeFuuroChars ((renderTile t).data ++ suffix) b =
        Except.map (fun r => (t, b) :: r) (decodeFuuroChars suffix b) := by
  obtain ⟨k, red⟩ := t
  fin_cases k <;> cases red <;>
    first
    | (exact absurd (hv rfl) (by decide))
    | (intro suffix b; rfl)

theorem decodeFuuro_open (rest : List Char) :
    decodeFuuroChars ('(' :: rest) false = decodeFuuroChars rest true := by
  cases rest <;> simp [decodeFuuroChars]

theorem decodeFuuro_open_nested (rest : List Char) :
    decodeFuuroChars ('(' :: rest) true =
      .error "nested opening parenthesis in fuuro" := by
  cases rest <;> simp [decodeFuuroChars]

theorem decodeFuuro_close (rest : List Char) :
    decodeFuuroChars (')' :: rest) true = decodeFuuroChars rest false := by
  cases rest <;> simp [decodeFuuroChars]

theorem decodeFuuro_close_extra (rest : List Char) :
    decodeFuuroChars (')' :: rest) false =
      .error "extra closing parenthesis in fuuro" := by
  cases rest <;> simp [decodeFuuroChars]

theorem decodeFuuro_encode_front (l : List Fuurohai) :
    (∀ x ∈ l, x.1.valid) → ∀ (suffix : List Char),
      decodeFuuroChars ((encodeFuuroTiles l).data ++ suffix) false =
        Except.map (fun r => l ++ r) (decodeFuuroChars suffix false) := by
  induction l with
  | nil =>
    intro _ suffix
    show decodeFuuroChars suffix false =
      Except.map (fun r => [] ++ r) (decodeFuuroChars suffix false)
    cases decodeFuuroChars suffix false <;> simp [Except.map]
  | cons x rest ih =>
    intro hv suffix
    obtain ⟨t, sw⟩ := x
    have hvt : t.valid := hv (t, sw) (List.mem_cons_self _ _)
    have hvr : ∀ y ∈ rest, y.1.valid :=
      fun y hy => hv y (List.mem_cons_of_mem _ hy)
    cases sw with
    | false =>
      rw [show encodeFuuroTiles ((t, false) :: rest) =
          renderTile t ++ encodeFuuroTiles rest from
          strJoin_cons (renderTile t) (rest.map encodeFuurohai),
        String.data_append, List.append_assoc, decodeFuuro_tile_step t hvt,
        ih hvr]
      cases decodeFuuroChars suffix false <;> simp [Except.map]
    | true =>
      rw [show encodeFuuroTiles ((t, true) :: rest) =
          ("(" ++ renderTile t ++ ")") ++ encodeFuuroTiles rest from
          strJoin_cons _ (rest.map encodeFuurohai)]
      simp only [String.data_append, List.append_assoc, List.cons_append,
        List.nil_append]
      rw [decodeFuuro_open, decodeFuuro_tile_step t hvt, decodeFuuro_close,
        ih hvr]
      cases decodeFuuroChars suffix false <;> simp [Except.map]

/-- C4: meld-string decode always fails on an opening parenthesis while one
is already open and on a closing parenthesis while none is open; otherwise
each 2-character tile token is appended to one flat per-seat list, tagged
sideways exactly when it lies inside parentheses, so the full rendering of
any tile list decodes back to that list; a trailing unclosed parenthesis is
tolerated; `(1p)2p3p` decodes to three tiles of which only the first is
sideways. -/
theorem c4_fuuro_decode :
    (∀ (l : List Fuurohai), (∀ x ∈ l, x.1.valid) → ∀ rest : List Char,
      decodeFuuroChars ((encodeFuuroTiles l).data ++ '(' :: '(' :: rest)
        false = .error "nested opening parenthesis in fuuro")
    ∧ (∀ (l : List Fuurohai), (∀ x ∈ l, x.1.valid) → ∀ rest : List Char,
      decodeFuuroChars ((encodeFuuroTiles l).data ++ ')' :: rest) false =
        .error "extra closing parenthesis in fuuro")
    ∧ (∀ (t : Tile), t.valid → ∀ rest : List Char,
      decodeFuuroChars ('(' :: ((renderTile t).data ++ '(' :: rest)) false =
        .error "nested opening parenthesis in fuuro")
    ∧ (∀ (l : List Fuurohai), (∀ x ∈ l, x.1.valid) →
      decodeFuuroChars ((encodeFuuroTiles l).data ++ ['(']) false = .ok l)
    ∧ (∀ (l : List Fuurohai), (∀ x ∈ l, x.1.valid) →
      decodeFuuroChars (encodeFuuroTiles l).data false = .ok l)
    ∧ decodeFuuro "(1p)2p3p" =
        .ok [(⟨9, false⟩, true), (⟨10, false⟩, false), (⟨11, false⟩, false)] := by
  refine ⟨?_, ?_, ?_, ?_, ?_, by decide⟩
  · intro l hv rest
    rw [decodeFuuro_encode_front l hv, decodeFuuro_open,
      decodeFuuro_open_nested]
    rfl
  · intro l hv rest
    rw [decodeFuuro_encode_front l hv, decodeFuuro_close_extra]
    rfl
  · intro t hv rest
    rw [decodeFuuro_open, decodeFuuro_tile_step t hv,
      decodeFuuro_open_nested]
    rfl
  · intro l hv
    rw [decodeFuuro_encode_front l hv, decodeFuuro_open]
    simp [Except.map, decodeFuuroChars]
  · intro l hv
    have h := decodeFuuro_encode_front l hv []
    rw [List.append_nil] at h
    rw [h]
    simp [Except.map, decodeFuuroChars]

set_option maxRecDepth 16384 in
/-- C4 witness: the rendering of a sideways 1p followed by a plain 2p
decodes back to those two tiles, still decodes (to the same two tiles) with
a trailing unclosed parenthesis, and fails on an unmatched closing
parenthesis. -/
theorem c4_fuuro_decode_witness :
    decodeFuuroChars
      ((encodeFuuroTiles [(⟨9, false⟩, true), (⟨10, false⟩, false)]).data ++
        ')' :: []) false = .error "extra closing parenthesis in fuuro"
    ∧ decodeFuuroChars
      ((encodeFuuroTiles [(⟨9, false⟩, true), (⟨10, false⟩, false)]).data ++
        ['(']) false = .ok [(⟨9, false⟩, true), (⟨10, false⟩, false)]
    ∧ decodeFuuroChars
      (encodeFuuroTiles [(⟨9, false⟩, true), (⟨10, false⟩, false)]).data
      false = .ok [(⟨9, false⟩, true), (⟨10, false⟩, false)] :=
  ⟨c4_fuuro_decode.2.1 [(⟨9, false⟩, true), (⟨10, false⟩, false)]
      (by decide) [],
    c4_fuuro_decode.2.2.2.1 [(⟨9, false⟩, true), (⟨10, false⟩, false)]
      (by decide),
    c4_fuuro_decode.2.2.2.2.1 [(⟨9, false⟩, true), (⟨10, false⟩, false)]
      (by decide)⟩

/-- C5: when a seat's melds are rendered back to text, the meld groups are
concatenated in reverse chronological order (most recently formed group
first) with no delimiter between groups, each tile rendered as
`(tile)` when sideways and as the bare tile token otherwise. -/
theorem c5_fuuro_encode_reverse (groups : List (List Fuurohai)) :
    encodeFuuroSeat groups =
      String.join (groups.reverse.map (fun g => String.join (g.map encodeFuurohai)))
    ∧ (∀ t : Tile, encodeFuurohai (t, true) = "(" ++ renderTile t ++ ")")
    ∧ (∀ t : Tile, encodeFuurohai (t, false) = renderTile t) := by
  refine ⟨?_, fun t => rfl, fun t => rfl⟩
  unfold encodeFuuroSeat
  rw [strJoin_map_flatten]

/-- C6: kyoku decode fails whenever the string does not have exactly two
characters; for a 2-character string, character 0 is parsed as the round
wind and character 1 as the round number, so `S3` decodes to round wind
South with round number 3. -/
theorem c6_kyoku_decode :
    (∀ s : String, s.length ≠ 2 →
      decodeKyoku s = .error "kyoku must be <bakaze><honba> (e.g. S3)")
    ∧ (∀ c1 c2 : Char, ∀ t : Tile, ∀ n : Nat,
        tileFromStr (String.mk [c1]) = some t →
        parseU8 (String.mk [c2]) = some n →
        decodeKyoku (String.mk [c1, c2]) = .ok (t, n))
    ∧ decodeKyoku "S3" = .ok (⟨28, false⟩, 3) := by
  refine ⟨?_, ?_, by decide⟩
  · intro s h
    obtain ⟨data⟩ := s
    have hlen : data.length ≠ 2 := h
    match data with
    | [] => rfl
    | [_] => rfl
    | [_, _] => exact absurd rfl hlen
    | _ :: _ :: _ :: _ => rfl
  · intro c1 c2 t n h1 h2
    unfold decodeKyoku
    simp only [h1, h2]

/-- C6 witness: a length-1 kyoku string fails, and `S3` decodes to the
South round wind with round number 3. -/
theorem c6_kyoku_decode_witness :
    decodeKyoku "X" = .error "kyoku must be <bakaze><honba> (e.g. S3)"
    ∧ decodeKyoku (String.mk ['S', '3']) = .ok (⟨28, false⟩, 3) :=
  ⟨c6_kyoku_decode.1 "X" (by decide),
    c6_kyoku_decode.2.1 'S' '3' ⟨28, false⟩ 3 (by decide) (by decide)⟩

/-- C7: decoding an empty score string yields 25000 and a non-empty one its
parsed integer value (`30000` decodes to 30000), with the field-named error
`incorrect score` when a non-empty string fails to parse; the four score
entries are decoded entrywise. -/
theorem c7_score_decode :
    decodeScore "" = .ok 25000
    ∧ decodeScore "30000" = .ok 30000
    ∧ (∀ (s : String) (v : Int), s ≠ "" → parseI32 s = some v →
        decodeScore s = .ok v)
    ∧ (∀ s : String, s ≠ "" → parseI32 s = none →
        decodeScore s = .error "incorrect score")
    ∧ (∀ (d0 d1 d2 d3 : Int) (r0 r1 r2 r3 : String) (v0 v1 v2 v3 : Int),
        decodeScore r0 = .ok v0 → decodeScore r1 = .ok v1 →
        decodeScore r2 = .ok v2 → decodeScore r3 = .ok v3 →
        decodeScoresList [d0, d1, d2, d3] [r0, r1, r2, r3] =
          .ok [v0, v1, v2, v3]) := by
  refine ⟨by decide, by decide, ?_, ?_, ?_⟩
  · intro s v hne hp
    unfold decodeScore
    rw [if_neg (by simp [String.isEmpty_iff, hne]), hp]
  · intro s hne hp
    unfold decodeScore
    rw [if_neg (by simp [String.isEmpty_iff, hne]), hp]
  · intro d0 d1 d2 d3 r0 r1 r2 r3 v0 v1 v2 v3 h0 h1 h2 h3
    simp [decodeScoresList, h0, h1, h2, h3]
    rfl

/-- C7 witness: the empty score string decodes to 25000, `30000` to 30000,
an unparsable non-empty score fails with the field-named error, and a
concrete four-entry list decodes entrywise. -/
theorem c7_score_decode_witness :
    decodeScore "30000" = .ok 30000
    ∧ decodeScore "x" = .error "incorrect score"
    ∧ decodeScoresList [0, 0, 0, 0] ["", "30000", "25000", "1000"] =
        .ok [25000, 30000, 25000, 1000] :=
  ⟨c7_score_decode.2.2.1 "30000" 30000 (by decide) (by decide),
    c7_score_decode.2.2.2.1 "x" (by decide) (by decide),
    c7_score_decode.2.2.2.2 0 0 0 0 "" "30000" "25000" "1000"
      25000 30000 25000 1000 (by decide) (by decide) (by decide) (by decide)⟩

/-- C10: the emitted kyoku field is the round-wind letter followed by the
internal 0-based round index plus one, and for the nine single-digit rounds
it re-decodes under the codec's kyoku parser to the same round wind with
the same (1-based) round number. -/
theorem c10_kyoku_roundtrip (w : Fin 4) (k : Nat) (hk : k < 9) :
    decodeKyoku (encodeKyokuField w k) = .ok (windTile w, k + 1) := by
  fin_cases w <;> interval_cases k <;> decide

/-- C10 witness: round wind South with internal round index 2 is emitted as
`S3` and re-decodes to South, round number 3. -/
theorem c10_kyoku_roundtrip_witness :
    decodeKyoku (encodeKyokuField 1 2) = .ok (windTile 1, 3) :=
  c10_kyoku_roundtrip 1 2 (by decide)

/-- The effect a chi or pon by relative seat `ra` on a tile of relative
seat `rt` has on the projections: one meld group appended to the caller's
meld list, the most recent entry removed from the target's visible discard
sequence, everything else untouched. -/
def callEffect (p q : Projections) (ra rt : Fin 4) (naki : List Fuurohai) :
    Prop :=
  q.fuuro ra = p.fuuro ra ++ [naki]
  ∧ (∀ s, s ≠ ra → q.fuuro s = p.fuuro s)
  ∧ q.kawa rt = (p.kawa rt).dropLast
  ∧ (∀ s, s ≠ rt → q.kawa s = p.kawa s)
  ∧ (∀ (xs : List (Tile × Bool × Bool)) (x : Tile × Bool × Bool),
      p.kawa rt = xs ++ [x] → q.kawa rt = xs)

theorem insertIdx_call_position (a t : Fin 4) (pai c0 c1 : Tile)
    (hne : a ≠ t) :
    (List.insertIdx ((4 + a.val - t.val) % 4 - 1) (pai, true)
        [(c0, false), (c1, false)])[(4 + a.val - t.val) % 4 - 1]? =
      some (pai, true)
    ∧ (List.insertIdx ((4 + a.val - t.val) % 4 - 1) (pai, true)
        [(c0, false), (c1, false)]).length = 3 := by
  fin_cases a <;> fin_cases t <;>
    first
    | exact absurd rfl hne
    | exact ⟨rfl, rfl⟩

theorem callEffect_of_update (p : Projections) (ra rt : Fin 4)
    (naki : List Fuurohai) :
    callEffect p
      ⟨Function.update p.kawa rt ((p.kawa rt).dropLast),
        Function.update p.fuuro ra (p.fuuro ra ++ [naki])⟩ ra rt naki := by
  refine ⟨Function.update_same ra _ p.fuuro, fun s hs => Function.update_noteq hs _ p.fuuro,
    Function.update_same rt _ p.kawa, fun s hs => Function.update_noteq hs _ p.kawa,
    fun xs x hx => ?_⟩
  show Function.update p.kawa rt ((p.kawa rt).dropLast) rt = xs
  rw [Function.update_same, hx, List.dropLast_concat]

/-- C2 (amended): for a chi or pon where seat `actor` calls a tile discarded
by seat `target`, the replay appends exactly one meld group to the caller's
meld list, with the called tile sideways at position (seat distance from
caller to target) minus one, and removes the most recent entry from the
target's visible discard sequence; for a daiminkan the most recent entry is
likewise removed from the target's visible discard sequence, but no meld
group is added anywhere (the source builds `naki` and never pushes it). -/
theorem c2_call_step (pid : Fin 4) (rd : Fin 4 → Bool) (actor target : Fin 4)
    (pai c0 c1 : Tile) (consumed3 : List Tile) (p : Projections)
    (hne : actor ≠ target) :
    callEffect p (stepProj pid rd (.chi actor target pai [c0, c1]) p)
      (rel pid actor) (rel pid target)
      (List.insertIdx ((4 + actor.val - target.val) % 4 - 1) (pai, true)
        [(c0, false), (c1, false)])
    ∧ callEffect p (stepProj pid rd (.pon actor target pai [c0, c1]) p)
      (rel pid actor) (rel pid target)
      (List.insertIdx ((4 + actor.val - target.val) % 4 - 1) (pai, true)
        [(c0, false), (c1, false)])
    ∧ (List.insertIdx ((4 + actor.val - target.val) % 4 - 1) (pai, true)
        [(c0, false), (c1, false)])[(4 + actor.val - target.val) % 4 - 1]? =
        some (pai, true)
    ∧ (List.insertIdx ((4 + actor.val - target.val) % 4 - 1) (pai, true)
        [(c0, false), (c1, false)]).length = 3
    ∧ (stepProj pid rd (.daiminkan actor target pai consumed3) p).fuuro =
        p.fuuro
    ∧ (stepProj pid rd (.daiminkan actor target pai consumed3) p).kawa
        (rel pid target) = (p.kawa (rel pid target)).dropLast
    ∧ (∀ s, s ≠ rel pid target →
        (stepProj pid rd (.daiminkan actor target pai consumed3) p).kawa s =
          p.kawa s) := by
  obtain ⟨hpos, hlen⟩ := insertIdx_call_position actor target pai c0 c1 hne
  refine ⟨callEffect_of_update p _ _ _, callEffect_of_update p _ _ _,
    hpos, hlen, rfl, Function.update_same _ _ p.kawa,
    fun s hs => Function.update_noteq hs _ p.kawa⟩

/-- C2 witness: with viewing seat 0, seat 1 pons the tile seat 0 just
discarded: the meld group `[(called 1m sideways), 1m, 1m]` is appended to
seat 1's meld list and seat 0's discard sequence loses its only entry. -/
theorem c2_call_step_witness :
    callEffect
      ⟨fun s => if s = 0 then [(⟨0, false⟩, false, false)] else [], fun _ => []⟩
      (stepProj 0 (fun _ => false)
        (.pon 1 0 ⟨0, false⟩ [⟨0, false⟩, ⟨0, false⟩])
        ⟨fun s => if s = 0 then [(⟨0, false⟩, false, false)] else [], fun _ => []⟩)
      (rel 0 1) (rel 0 0)
      (List.insertIdx ((4 + (1 : Fin 4).val - (0 : Fin 4).val) % 4 - 1)
        (⟨0, false⟩, true) [(⟨0, false⟩, false), (⟨0, false⟩, false)]) :=
  (c2_call_step 0 (fun _ => false) 1 0 ⟨0, false⟩ ⟨0, false⟩ ⟨0, false⟩ []
    ⟨fun s => if s = 0 then [(⟨0, false⟩, false, false)] else [], fun _ => []⟩
    (by decide)).2.1

/-- C2 counterexample: the claim includes daiminkan among the calls that add
a meld group, but after a daiminkan the caller's meld list is unchanged: no
meld group has been appended. -/
theorem c2_daiminkan_counterexample :
    ¬ ∃ naki : List Fuurohai,
      (stepProj 0 (fun _ => false)
        (.daiminkan 1 0 ⟨0, false⟩ [⟨0, false⟩, ⟨0, false⟩, ⟨0, false⟩])
        ⟨fun s => if s = 0 then [(⟨0, false⟩, false, false)] else [],
          fun _ => []⟩).fuuro (rel 0 1) =
      ((⟨fun s => if s = 0 then [(⟨0, false⟩, false, false)] else [],
          fun _ => []⟩ : Projections)).fuuro (rel 0 1) ++ [naki] := by
  rintro ⟨naki, h⟩
  exact absurd h (by simp [stepProj])

/-- C3: a kakan scans the caller's meld groups in order; at the first
sideways tile whose de-reddened value equals the upgrading tile's, the
upgrading tile is inserted immediately after it, also sideways; every other
meld group, every other seat, and all discard sequences are unchanged. -/
theorem c3_kakan_first_match (pid : Fin 4) (rd : Fin 4 → Bool) (actor : Fin 4)
    (pai : Tile) (consumed : List Tile) (p q : Projections)
    (hq : q = stepProj pid rd (.kakan actor pai consumed) p)
    (k i : Nat) (g : List Fuurohai) (x : Fuurohai)
    (hg : (p.fuuro (rel pid actor))[k]? = some g)
    (hbefore : ∀ j < k, ∀ gj, (p.fuuro (rel pid actor))[j]? = some gj →
      ∀ y ∈ gj, ¬ sidewaysMatch pai y)
    (hx : g[i]? = some x) (hxm : sidewaysMatch pai x)
    (hfirst : ∀ j < i, ∀ y, g[j]? = some y → ¬ sidewaysMatch pai y) :
    q.fuuro (rel pid actor) =
      (p.fuuro (rel pid actor)).take k ++
        (g.take (i + 1) ++ (pai, true) :: g.drop (i + 1)) ::
        (p.fuuro (rel pid actor)).drop (k + 1)
    ∧ (∀ j, j ≠ k →
        (q.fuuro (rel pid actor))[j]? = (p.fuuro (rel pid actor))[j]?)
    ∧ (∀ s, s ≠ rel pid actor → q.fuuro s = p.fuuro s)
    ∧ q.kawa = p.kawa := by
  subst hq
  have hupd : kakanUpdate pai (p.fuuro (rel pid actor)) =
      (p.fuuro (rel pid actor)).take k ++
        (g.take (i + 1) ++ (pai, true) :: g.drop (i + 1)) ::
        (p.fuuro (rel pid actor)).drop (k + 1) :=
    kakanUpdate_first pai _ k g _ hg
      (kakanGroup_first pai g i x hx hxm hfirst) hbefore
  have hk : k < (p.fuuro (rel pid actor)).length :=
    (List.getElem?_eq_some.mp hg).1
  have hfa : (stepProj pid rd (.kakan actor pai consumed) p).fuuro
      (rel pid actor) = kakanUpdate pai (p.fuuro (rel pid actor)) :=
    Function.update_same _ _ _
  refine ⟨?_, ?_, ?_, rfl⟩
  · rw [hfa, hupd]
  · intro j hj
    rw [hfa, hupd, getElem?_replace_middle _ _ k j hk hj]
  · intro s hs
    exact Function.update_noteq hs _ p.fuuro

/-- The concrete projections used by the C3 witness: one pon of 5p whose
middle tile is sideways, held by relative seat 0. -/
def kakanExampleProj : Projections :=
  ⟨fun _ => [],
    fun s => if s = 0 then
      [[(⟨13, false⟩, false), (⟨13, false⟩, true), (⟨13, false⟩, false)]]
    else []⟩

set_option maxRecDepth 8192 in
/-- C3 witness: a pon of 5p with the middle tile sideways is upgraded by the
red 5p: the red tile is inserted right after the sideways 5p, also
sideways. -/
theorem c3_kakan_first_match_witness :
    (stepProj 0 (fun _ => false) (.kakan 0 ⟨13, true⟩ [])
      kakanExampleProj).fuuro (rel 0 0) =
      [[(⟨13, false⟩, false), (⟨13, false⟩, true), (⟨13, true⟩, true),
        (⟨13, false⟩, false)]] := by
  have h := (c3_kakan_first_match 0 (fun _ => false) 0 ⟨13, true⟩ []
    kakanExampleProj
    (stepProj 0 (fun _ => false) (.kakan 0 ⟨13, true⟩ []) kakanExampleProj)
    rfl 0 1
    [(⟨13, false⟩, false), (⟨13, false⟩, true), (⟨13, false⟩, false)]
    (⟨13, false⟩, true) (by decide) (by omega) (by decide) (by decide)
    (by decide)).1
  exact h

/-- C9: when a kakan's upgrading tile has no de-reddened sideways match in
the caller's meld groups, the projection step changes nothing at all, and
the replay loop simply continues with the next action (no error). -/
theorem c9_kakan_unmatched (pid : Fin 4) (rd : Fin 4 → Bool) (actor : Fin 4)
    (pai : Tile) (consumed : List Tile) (p : Projections)
    (h : ∀ g ∈ p.fuuro (rel pid actor), ∀ x ∈ g, ¬ sidewaysMatch pai x) :
    stepProj pid rd (.kakan actor pai consumed) p = p
    ∧ ∀ (S : Type) (upd : S → Event → Except String S)
        (riichiOf : S → Fin 4 → Bool) (st st2 : S) (rest : List Event),
        upd st (.kakan actor pai consumed) = .ok st2 →
        replayLoop upd riichiOf pid st p (.kakan actor pai consumed :: rest) =
          replayLoop upd riichiOf pid st2 p rest := by
  have hstep : ∀ rd2 : Fin 4 → Bool,
      stepProj pid rd2 (.kakan actor pai consumed) p = p := by
    intro rd2
    simp only [stepProj]
    rw [kakanUpdate_no_match pai _ h, Function.update_eq_self]
  refine ⟨hstep rd, fun S upd riichiOf st st2 rest hupd => ?_⟩
  simp only [replayLoop, hupd]
  rw [if_neg (by simp), hstep (riichiOf st2)]

/-- The concrete projections used by the C9 witness: one concealed kan of
1m (no sideways tiles), held by relative seat 0. -/
def ankanExampleProj : Projections :=
  ⟨fun _ => [],
    fun s => if s = 0 then
      [[(⟨0, false⟩, false), (⟨0, false⟩, false), (⟨0, false⟩, false),
        (⟨0, false⟩, false)]]
    else []⟩

theorem replayLoop_append {S : Type} (upd : S → Event → Except String S)
    (riichiOf : S → Fin 4 → Bool) (pid : Fin 4) (pre suf : List Event) :
    ∀ (st : S) (proj : Projections) (st2 : S) (proj2 : Projections),
      replayLoop upd riichiOf pid st proj pre = .ok (st2, proj2) →
      Event.endKyoku ∉ pre →
      replayLoop upd riichiOf pid st proj (pre ++ suf) =
        replayLoop upd riichiOf pid st2 proj2 suf := by
  induction pre with
  | nil =>
    intro st proj st2 proj2 h _
    simp only [replayLoop, Except.ok.injEq, Prod.mk.injEq] at h
    obtain ⟨rfl, rfl⟩ := h
    rfl
  | cons ev rest ih =>
    intro st proj st2 proj2 h hnk
    have hev : ¬ ev = Event.endKyoku :=
      fun hev => hnk (hev ▸ List.mem_cons_self _ _)
    cases hupd : upd st ev with
    | error e =>
      simp only [replayLoop, hupd] at h
      exact Except.noConfusion h
    | ok stA =>
      simp only [List.cons_append, replayLoop, hupd, if_neg hev] at h ⊢
      exact ih _ _ _ _ h (fun hm => hnk (List.mem_cons_of_mem _ hm))

/-- C8: board reconstruction fails with a descriptive error and no partial
result when the log has no rounds, when the seat-wind string fails to
parse, and when the rules-engine updater rejects an action — in which case
the replay aborts at that action with the wrapped engine error. -/
theorem c8_generate_board_failures :
    (∀ (S : Type) (upd : S → Event → Except String S)
        (riichiOf : S → Fin 4 → Bool) (oya : Nat) (events : List Event)
        (jikazeStr : String) (init : Fin 4 → S),
        generateBoardFromTenhou upd riichiOf 0 oya events jikazeStr init =
          .error "no kyokus")
    ∧ (∀ (S : Type) (upd : S → Event → Except String S)
        (riichiOf : S → Fin 4 → Bool) (n oya : Nat) (events : List Event)
        (jikazeStr : String) (init : Fin 4 → S),
        n ≠ 0 → tileFromStr jikazeStr = none →
        generateBoardFromTenhou upd riichiOf n oya events jikazeStr init =
          .error "invalid jikaze")
    ∧ (∀ (S : Type) (upd : S → Event → Except String S)
        (riichiOf : S → Fin 4 → Bool) (n oya : Nat) (events : List Event)
        (jikazeStr : String) (init : Fin 4 → S) (jz : Tile)
        (pre : List Event) (ev : Event) (rest : List Event) (e : String)
        (st2 : S) (proj2 : Projections),
        n ≠ 0 → tileFromStr jikazeStr = some jz →
        events = pre ++ ev :: rest →
        Event.endKyoku ∉ pre →
        replayLoop upd riichiOf (viewerSeat oya jz)
          (init (viewerSeat oya jz)) emptyProjections pre = .ok (st2, proj2) →
        upd st2 ev = .error e →
        generateBoardFromTenhou upd riichiOf n oya events jikazeStr init =
          .error ("invalid event: " ++ e)) := by
  refine ⟨?_, ?_, ?_⟩
  · intro S upd riichiOf oya events jikazeStr init
    rfl
  · intro S upd riichiOf n oya events jikazeStr init hn hjz
    unfold generateBoardFromTenhou
    rw [if_neg hn, hjz]
  · intro S upd riichiOf n oya events jikazeStr init jz pre ev rest e st2
      proj2 hn hjz hevents hnk hloop hupd
    subst hevents
    unfold generateBoardFromTenhou
    rw [if_neg hn, hjz]
    show replayLoop upd riichiOf (viewerSeat oya jz)
      (init (viewerSeat oya jz)) emptyProjections (pre ++ ev :: rest) =
      .error ("invalid event: " ++ e)
    rw [replayLoop_append upd riichiOf (viewerSeat oya jz) pre (ev :: rest)
      _ _ _ _ hloop hnk]
    simp only [replayLoop, hupd]

/-- C8 witness: an empty log, the unparsable wind `Q`, and a log whose
second action the engine rejects all produce the corresponding errors. -/
theorem c8_generate_board_failures_witness :
    generateBoardFromTenhou (S := Nat) (fun s _ => .ok s) (fun _ _ => false)
      0 0 [] "E" (fun _ => 0) = .error "no kyokus"
    ∧ generateBoardFromTenhou (S := Nat) (fun s _ => .ok s) (fun _ _ => false)
      1 0 [] "Q" (fun _ => 0) = .error "invalid jikaze"
    ∧ generateBoardFromTenhou (S := Nat)
      (fun s e => if e = .other then .error "boom" else .ok s)
      (fun _ _ => false) 1 0 [.dahai 0 ⟨0, false⟩ true, .other] "E"
      (fun _ => 0) = .error ("invalid event: " ++ "boom") := by
  refine ⟨?_, ?_, ?_⟩
  · exact c8_generate_board_failures.1 Nat (fun s _ => .ok s)
      (fun _ _ => false) 0 [] "E" (fun _ => 0)
  · exact c8_generate_board_failures.2.1 Nat (fun s _ => .ok s)
      (fun _ _ => false) 1 0 [] "Q" (fun _ => 0) (by decide) (by decide)
  · exact c8_generate_board_failures.2.2 Nat
      (fun s e => if e = .other then .error "boom" else .ok s)
      (fun _ _ => false) 1 0 [.dahai 0 ⟨0, false⟩ true, .other] "E"
      (fun _ => 0) ⟨27, false⟩ [.dahai 0 ⟨0, false⟩ true] .other [] "boom"
      0 _ (by decide) (by decide) rfl (by decide) rfl rfl

set_option maxRecDepth 8192 in
/-- C9 witness: upgrading with the red 5p when the only meld is a concealed
kan of 1m (no sideways tiles) leaves the projections unchanged and the
replay continues. -/
theorem c9_kakan_unmatched_witness :
    stepProj 0 (fun _ => false) (.kakan 0 ⟨13, true⟩ []) ankanExampleProj =
      ankanExampleProj :=
  (c9_kakan_unmatched 0 (fun _ => false) 0 ⟨13, true⟩ [] ankanExampleProj
    (by decide)).1
